import Mathlib

/-!
Verification of the ocitool OCI image toolkit against its natural-language
specification. The Rust sources are shallowly embedded: pure functions become
Lean functions, HTTP interactions are modelled by passing the observed
responses as explicit inputs, and the actions a function performs (HEAD, POST,
PUT requests) are returned as explicit traces. External primitives (sha256,
zstd, regular-expression matching) are taken as function parameters, since the
program only pipes data through them.
-/

namespace Ocitool

/-! ## Image reference parser (src/parser.rs) -/

/-- Mirrors `FullImage` from src/parser.rs. -/
structure FullImage where
  registry : String
  image_name : String
  library_name : String
  service : String
deriving DecidableEq, Repr

/-- Mirrors `FullImageWithTag` from src/parser.rs. -/
structure FullImageWithTag where
  image : FullImage
  tag : String
deriving DecidableEq, Repr

/-- Splits a character list at every occurrence of the separator, keeping
empty pieces, matching Rust's `str::split(char)`. -/
def splitCharList (sep : Char) : List Char → List (List Char)
  | [] => [[]]
  | c :: rest =>
    let r := splitCharList sep rest
    if c = sep then [] :: r
    else
      match r with
      | h :: t => (c :: h) :: t
      | [] => [[c]]

/-- String form of `splitCharList`; models Rust's `str::split(char)`. -/
def splitChar (s : String) (sep : Char) : List String :=
  (splitCharList sep s.toList).map (fun cs => String.mk cs)

/-- Models Rust's `str::contains(char)`. -/
def strContainsChar (s : String) (c : Char) : Bool :=
  s.toList.contains c

/-- Models Rust's `[&str]::join("/")`. -/
def joinSlash : List String → String
  | [] => ""
  | h :: t => t.foldl (fun acc x => acc ++ "/" ++ x) h

/-- Models Rust's `str::starts_with('/')`. -/
def startsWithSlash (s : String) : Bool :=
  match s.toList with
  | c :: _ => c = '/'
  | [] => false

/-- Mirrors `FullImage::get_image_url` from src/parser.rs: the registry, the
literal `/v2/` and the image name field (not the library name field). -/
def FullImage.get_image_url (img : FullImage) : String :=
  img.registry ++ "/v2/" ++ img.image_name

/-- Mirrors `FullImageWithTag::from_image_name` from src/parser.rs line by
line: split on slashes, pick the registry for more than two segments, rebuild
the name, split off the tag, and prepend `library/` only when the whole input
contains no slash. -/
def FullImageWithTag.from_image_name (image_name : String) : FullImageWithTag :=
  let parts : List String := splitChar image_name '/'
  let registry : String :=
    if parts.length > 2 then "https://" ++ parts.headD ""
    else "https://registry-1.docker.io"
  let full_name : String :=
    if parts.length == 3 then joinSlash (parts.drop 1)
    else image_name
  let name : String := (splitChar full_name ':').headD ""
  let tag : String := ((splitChar full_name ':').drop 1).headD "latest"
  let library_name : String :=
    if strContainsChar image_name '/' then name else "library/" ++ name
  let service : String :=
    if parts.length > 2 then parts.headD "" else "registry.docker.io"
  { image :=
      { registry := registry
        image_name := name
        library_name := library_name
        service := service }
    tag := tag }

/-- Mirrors `FullImage::from_image_name`. -/
def FullImage.from_image_name (image_name : String) : FullImage :=
  (FullImageWithTag.from_image_name image_name).image

/-- URL issued by `OciDownloader::download_index` (src/downloader.rs line 54):
the image URL followed by `/manifests/<tag>`. -/
def download_index_url (image : FullImageWithTag) : String :=
  image.image.get_image_url ++ "/manifests/" ++ image.tag

/-- Modelled from the spec: the manifest URL the specification says the
downloader issues, built from the parsed fields with the library name as the
repository path (spec 4.1 rule 6 and the round-trip law in spec 8). -/
def spec_manifest_url (image : FullImageWithTag) : String :=
  image.image.registry ++ "/v2/" ++ image.image.library_name ++ "/manifests/" ++ image.tag

/-! ## Platform matcher (src/platform.rs, src/spec/enums.rs, src/spec/index.rs) -/

/-- Mirrors `PlatformArchitecture` from src/spec/enums.rs. -/
inductive PlatformArchitecture where
  | Amd64 | X86 | Arm64 | Arm | Wasm | Ppc64 | Ppc64Le | Loong64
  | Mips | Mipsle | Mips64 | Mips64le | Riscv64 | S390x | Unknown
deriving DecidableEq, Repr

/-- Mirrors `PlatformOS` from src/spec/enums.rs. -/
inductive PlatformOS where
  | Aix | Android | Darwin | Dragonfly | Freebsd | Illumos | Ios | Js | Linux
  | Netbsd | Openbsd | Plan9 | Solaris | Wasip1 | Windows | Unknown
deriving DecidableEq, Repr

/-- Mirrors `MediaType` from src/spec/enums.rs. -/
inductive MediaType where
  | OciImageIndexV1Json
  | OciImageManifestV1Json
  | OciImageConfigV1ConfigJson
  | OciImageLayerV1TarZstd
  | OciImageLayerV1TarGzip
  | OciImageLayerV1Tar
  | DockerManifestListV2Json
  | DockerManifestV2Json
  | DockerConfigV1Json
  | DockerImageRootfsDiffTarGzip
  | DockerImageRootfsDiffTarZstd
  | DockerImageRootfsDiffTar
deriving DecidableEq, Repr

/-- Mirrors `MediaType::to_string` from src/spec/enums.rs. -/
def MediaType.toWire : MediaType → String
  | .OciImageIndexV1Json => "application/vnd.oci.image.index.v1+json"
  | .OciImageManifestV1Json => "application/vnd.oci.image.manifest.v1+json"
  | .OciImageConfigV1ConfigJson => "application/vnd.oci.image.config.v1+json"
  | .OciImageLayerV1TarZstd => "application/vnd.oci.image.layer.v1.tar+zstd"
  | .OciImageLayerV1TarGzip => "application/vnd.oci.image.layer.v1.tar+gzip"
  | .OciImageLayerV1Tar => "application/vnd.oci.image.layer.v1.tar"
  | .DockerManifestListV2Json => "application/vnd.docker.distribution.manifest.list.v2+json"
  | .DockerManifestV2Json => "application/vnd.docker.distribution.manifest.v2+json"
  | .DockerConfigV1Json => "application/vnd.docker.container.image.v1+json"
  | .DockerImageRootfsDiffTarGzip => "application/vnd.docker.image.rootfs.diff.tar.gzip"
  | .DockerImageRootfsDiffTarZstd => "application/vnd.docker.image.rootfs.diff.tar.zstd"
  | .DockerImageRootfsDiffTar => "application/vnd.docker.image.rootfs.diff.tar"

/-- Mirrors `Platform` from src/spec/index.rs. -/
structure Platform where
  architecture : PlatformArchitecture
  os : PlatformOS
  os_version : Option String
  os_features : Option (List String)
  variant : Option String
  features : Option (List String)
deriving DecidableEq, Repr

/-- Mirrors `Manifest` (a child descriptor of an image index) from
src/spec/index.rs. -/
structure Manifest where
  media_type : MediaType
  size : Nat
  digest : String
  platform : Option Platform
deriving DecidableEq, Repr

/-- Mirrors `PlatformMatcher` from src/platform.rs: the matcher state is
exactly one architecture; there is no variant field. -/
structure PlatformMatcher where
  platform : PlatformArchitecture
deriving DecidableEq, Repr

/-- Mirrors `PlatformMatcher::matches`. -/
def PlatformMatcher.matchesArch (m : PlatformMatcher) (image_platform : PlatformArchitecture) : Bool :=
  decide (m.platform = image_platform)

/-- Mirrors the loop of `PlatformMatcher::find_manifest` from src/platform.rs:
walk the list; a manifest with a platform whose architecture matches is
returned at once; manifests without a platform are passed over. -/
def PlatformMatcher.find_manifest (m : PlatformMatcher) : List Manifest → Option Manifest
  | [] => none
  | mf :: rest =>
    match mf.platform with
    | some p => if m.matchesArch p.architecture then some mf else m.find_manifest rest
    | none => m.find_manifest rest

/-- Rewrites only the variant field of a manifest descriptor's platform,
leaving every other field unchanged; used to state that manifest selection
never reads variants. -/
def Manifest.mapVariant (g : Option String → Option String) (mf : Manifest) : Manifest :=
  { mf with platform := mf.platform.map (fun p => { p with variant := g p.variant }) }

/-! ## Plan configuration merge (src/spec/plan.rs) -/

/-- Association-list model of Rust's `HashMap<String, α>`: only lookup
behaviour matters to the claims, and maps built by deserialization carry
distinct keys. -/
abbrev HMap (α : Type) := List (String × α)

/-- Key lookup: the value of the first entry carrying the key. -/
def HMap.findKey {α : Type} (m : HMap α) (k : String) : Option α :=
  (m.find? (fun kv => decide (kv.1 = k))).map (fun kv => kv.2)

/-- Single-entry insert with the overwrite semantics of Rust's
`HashMap::insert`: the new binding shadows any previous one. -/
def HMap.insertKV {α : Type} (m : HMap α) (k : String) (v : α) : HMap α :=
  (k, v) :: m.eraseP (fun kv => decide (kv.1 = k))

/-- Mirrors Rust's `HashMap::extend`: every entry of `addition` is inserted
into `m`, entries of `addition` overwriting entries of `m` on common keys. -/
def HMap.extendWith {α : Type} (m addition : HMap α) : HMap α :=
  addition.foldl (fun acc kv => acc.insertKV kv.1 kv.2) m

/-- Modelled from the source usage: the `Healthcheck` struct is referenced by
src/spec/plan.rs but its definition is not under src; the field set and their
optionality are read off `merge_image_plan_configs`. -/
structure Healthcheck where
  test : Option (List String)
  interval : Option Int
  timeout : Option Int
  retries : Option Int
  start_period : Option Int
  start_interval : Option Int
  disable : Bool
deriving DecidableEq, Repr

/-- Mirrors `ImagePlanConfig` from src/spec/plan.rs. -/
structure ImagePlanConfig where
  user : Option String
  exposed_ports : Option (HMap (HMap String))
  env : Option (List String)
  entrypoint : Option (List String)
  cmd : Option (List String)
  volumes : Option (HMap (HMap String))
  working_dir : Option String
  labels : Option (HMap String)
  stop_signal : Option String
  args_escaped : Option Bool
  memory : Option Int
  memory_swap : Option Int
  cpu_shares : Option Int
  healthcheck : Option Healthcheck
deriving Repr

/-- Mirrors the run `Config` structure as produced by
`merge_image_plan_configs` and `ImagePlanConfig::to_config`
(src/spec/plan.rs). -/
structure RunConfig where
  user : Option String
  exposed_ports : Option (HMap (HMap String))
  env : Option (List String)
  entrypoint : Option (List String)
  cmd : Option (List String)
  volumes : Option (HMap (HMap String))
  working_dir : Option String
  labels : Option (HMap String)
  stop_signal : Option String
  args_escaped : Option Bool
  memory : Option Int
  memory_swap : Option Int
  cpu_shares : Option Int
  healthcheck : Option Healthcheck
deriving Repr

/-- Mirrors `ImagePlanConfig::to_config` from src/spec/plan.rs: a field-wise
copy. -/
def ImagePlanConfig.to_config (c : ImagePlanConfig) : RunConfig :=
  { user := c.user
    exposed_ports := c.exposed_ports
    env := c.env
    entrypoint := c.entrypoint
    cmd := c.cmd
    volumes := c.volumes
    working_dir := c.working_dir
    labels := c.labels
    stop_signal := c.stop_signal
    args_escaped := c.args_escaped
    memory := c.memory
    memory_swap := c.memory_swap
    cpu_shares := c.cpu_shares
    healthcheck := c.healthcheck }

/-- The map-field merge of `merge_image_plan_configs`: both fields present
clones the `original` (platform) map and extends it with the `plan`
(top-level) map; one side present is taken wholesale. This abbreviates the
three textually identical inline `match` blocks of src/spec/plan.rs lines
118-127, 134-143 and 148-157. -/
def mergeMapField {α : Type} (original plan : Option (HMap α)) : Option (HMap α) :=
  match original, plan with
  | some original_m, some plan_m => some (original_m.extendWith plan_m)
  | none, some plan_m => some plan_m
  | some original_m, none => some original_m
  | none, none => none

/-- Mirrors `merge_image_plan_configs` from src/spec/plan.rs. The first
argument is the value passed as `base_config` (the plan-level, top config; it
is bound to the name `plan` inside the Rust match) and the second is `config`
(the platform-level config, bound to `original`). -/
def merge_image_plan_configs (base_config config : Option ImagePlanConfig) : Option RunConfig :=
  match base_config, config with
  | some plan, some original =>
    some
      { user := (original.user).orElse (fun _ => plan.user)
        exposed_ports := mergeMapField original.exposed_ports plan.exposed_ports
        env := (original.env).orElse (fun _ => plan.env)
        entrypoint := (original.entrypoint).orElse (fun _ => plan.entrypoint)
        cmd := (original.cmd).orElse (fun _ => plan.cmd)
        volumes := mergeMapField original.volumes plan.volumes
        working_dir := (original.working_dir).orElse (fun _ => plan.working_dir)
        labels := mergeMapField original.labels plan.labels
        stop_signal := (original.stop_signal).orElse (fun _ => plan.stop_signal)
        args_escaped := (original.args_escaped).orElse (fun _ => plan.args_escaped)
        memory := (original.memory).orElse (fun _ => plan.memory)
        memory_swap := (original.memory_swap).orElse (fun _ => plan.memory_swap)
        cpu_shares := (original.cpu_shares).orElse (fun _ => plan.cpu_shares)
        healthcheck :=
          match original.healthcheck, plan.healthcheck with
          | some original_hc, some plan_hc =>
            some
              { test := (plan_hc.test).orElse (fun _ => original_hc.test)
                interval := (plan_hc.interval).orElse (fun _ => original_hc.interval)
                timeout := (plan_hc.timeout).orElse (fun _ => original_hc.timeout)
                retries := (plan_hc.retries).orElse (fun _ => original_hc.retries)
                start_period := (plan_hc.start_period).orElse (fun _ => original_hc.start_period)
                start_interval := (plan_hc.start_interval).orElse (fun _ => original_hc.start_interval)
                disable := plan_hc.disable || original_hc.disable }
          | none, some plan_hc =>
            some
              { test := plan_hc.test
                interval := plan_hc.interval
                timeout := plan_hc.timeout
                retries := plan_hc.retries
                start_period := plan_hc.start_period
                start_interval := plan_hc.start_interval
                disable := plan_hc.disable }
          | some original_hc, none =>
            some
              { test := original_hc.test
                interval := original_hc.interval
                timeout := original_hc.timeout
                retries := original_hc.retries
                start_period := original_hc.start_period
                start_interval := original_hc.start_interval
                disable := original_hc.disable }
          | none, none => none }
  | some plan, none => some plan.to_config
  | none, some original => some original.to_config
  | none, none => none

/-! ## Uploader (src/uploader.rs) -/

/-- Mirrors `Blob` from src/execution.rs. -/
structure Blob where
  digest : String
  data : List Nat
deriving DecidableEq, Repr

/-- One HTTP request issued by the uploader, recorded as a trace event. -/
inductive UploadAction where
  | headReq (url : String)
  | postReq (url : String)
  | putReq (url : String)
deriving DecidableEq, Repr

/-- The registry's observed behaviour during one `upload_blob` call: the
status answered to the HEAD probe, the `Location` header answered to the POST
(absent models a response without that header), and the status answered to the
PUT. -/
structure RegistryEnv where
  headStatus : Nat
  postLocation : Option String
  putStatus : Nat
deriving Repr

/-- Outcome of an uploader call: the error-or-unit result, the new
per-process `uploaded_blobs` list and the trace of requests issued. -/
structure UploadOutcome where
  result : Except String Unit
  uploadedBlobs : List String
  actions : List UploadAction
deriving Repr

/-- Mirrors `OciUploader::blob_exists` from src/uploader.rs: a digest already
in the per-process `uploaded_blobs` list is reported as existing without any
request; otherwise one HEAD is issued and existence means exactly status 200
(any other status, 5xx included, yields `false` rather than an error); on 200
the digest is recorded. -/
def blob_exists (registry image_name : String) (uploadedBlobs : List String)
    (b : Blob) (headStatus : Nat) : Bool × List String × List UploadAction :=
  if b.digest ∈ uploadedBlobs then
    (true, uploadedBlobs, [])
  else
    let url := registry ++ "/v2/" ++ image_name ++ "/blobs/" ++ b.digest
    let ex := headStatus == 200
    (ex, if ex then uploadedBlobs ++ [b.digest] else uploadedBlobs, [.headReq url])

/-- Mirrors `OciUploader::upload_blob` from src/uploader.rs: consult
`blob_exists`; on existence return success with no upload; otherwise POST the
upload endpoint, resolve a relative `Location` against the registry, append
the digest query parameter and PUT the bytes; 201 is success, anything else an
error. -/
def upload_blob (registry image_name : String) (uploadedBlobs : List String)
    (b : Blob) (env : RegistryEnv) : UploadOutcome :=
  let (ex, ub, acts) := blob_exists registry image_name uploadedBlobs b env.headStatus
  if ex then
    { result := .ok (), uploadedBlobs := ub, actions := acts }
  else
    let postUrl := registry ++ "/v2/" ++ image_name ++ "/blobs/uploads/"
    match env.postLocation with
    | none =>
      { result := .error "Missing Location header"
        uploadedBlobs := ub
        actions := acts ++ [.postReq postUrl] }
    | some location =>
      let location := if startsWithSlash location then registry ++ location else location
      let uploadUrl :=
        if strContainsChar location '?' then location ++ "&digest=" ++ b.digest
        else location ++ "?digest=" ++ b.digest
      if env.putStatus == 201 then
        { result := .ok ()
          uploadedBlobs := ub ++ [b.digest]
          actions := acts ++ [.postReq postUrl, .putReq uploadUrl] }
      else
        { result := .error ("Failed to upload blob: " ++ toString env.putStatus)
          uploadedBlobs := ub
          actions := acts ++ [.postReq postUrl, .putReq uploadUrl] }

/-- Mirrors the request construction of `OciUploader::upload_manifest` from
src/uploader.rs: the PUT URL and the Content-Type header value it sends. The
header is the string literal of src/uploader.rs line 165; the function has no
content-type parameter. -/
def upload_manifest_request (registry image_name tag : String) : String × String :=
  (registry ++ "/v2/" ++ image_name ++ "/manifests/" ++ tag,
   "application/vnd.oci.image.manifest.v1+json")

/-- Mirrors the result handling of `OciUploader::upload_manifest`: 201 is
success, every other status an error. -/
def upload_manifest_result (putStatus : Nat) : Except String Unit :=
  if putStatus == 201 then .ok ()
  else .error ("Failed to upload manifest: " ++ toString putStatus)

/-- Media type string the build executor passes for its final index PUT
(src/execution.rs line 384). -/
def executor_index_put_media_type : String :=
  "application/vnd.oci.image.index.v1+json"

/-! ## Downloader index fetch (src/downloader.rs) -/

/-- JSON values as seen after wire decoding; serde maps a response body to
this shape before building the typed structures. -/
inductive Json where
  | null
  | bool (b : Bool)
  | num (n : Int)
  | str (s : String)
  | arr (xs : List Json)
  | obj (fields : List (String × Json))

/-- Field lookup in a JSON object; `none` on non-objects and absent keys. -/
def Json.getField : Json → String → Option Json
  | .obj fields, k => (fields.find? (fun kv => decide (kv.1 = k))).map (fun kv => kv.2)
  | _, _ => none

/-- Serde decoding of `MediaType` (src/spec/enums.rs): exactly the rename
strings are accepted. -/
def MediaType.fromWire (s : String) : Option MediaType :=
  if s = "application/vnd.oci.image.index.v1+json" then some .OciImageIndexV1Json
  else if s = "application/vnd.oci.image.manifest.v1+json" then some .OciImageManifestV1Json
  else if s = "application/vnd.oci.image.config.v1+json" then some .OciImageConfigV1ConfigJson
  else if s = "application/vnd.oci.image.layer.v1.tar+zstd" then some .OciImageLayerV1TarZstd
  else if s = "application/vnd.oci.image.layer.v1.tar+gzip" then some .OciImageLayerV1TarGzip
  else if s = "application/vnd.oci.image.layer.v1.tar" then some .OciImageLayerV1Tar
  else if s = "application/vnd.docker.distribution.manifest.list.v2+json" then some .DockerManifestListV2Json
  else if s = "application/vnd.docker.distribution.manifest.v2+json" then some .DockerManifestV2Json
  else if s = "application/vnd.docker.container.image.v1+json" then some .DockerConfigV1Json
  else if s = "application/vnd.docker.image.rootfs.diff.tar.gzip" then some .DockerImageRootfsDiffTarGzip
  else if s = "application/vnd.docker.image.rootfs.diff.tar.zstd" then some .DockerImageRootfsDiffTarZstd
  else if s = "application/vnd.docker.image.rootfs.diff.tar" then some .DockerImageRootfsDiffTar
  else none

/-- Serde decoding of a media type field. -/
def parseMediaType (j : Json) : Option MediaType :=
  match j with
  | .str s => MediaType.fromWire s
  | _ => none

/-- Serde decoding of an unsigned integer field. -/
def parseNat (j : Json) : Option Nat :=
  match j with
  | .num n => if n < 0 then none else some n.toNat
  | _ => none

/-- Serde decoding of a string field. -/
def parseString (j : Json) : Option String :=
  match j with
  | .str s => some s
  | _ => none

/-- Serde decoding of `PlatformArchitecture` (src/spec/enums.rs renames). -/
def parseArchitecture (j : Json) : Option PlatformArchitecture :=
  match j with
  | .str s =>
    if s = "amd64" then some .Amd64
    else if s = "386" then some .X86
    else if s = "arm64" then some .Arm64
    else if s = "arm" then some .Arm
    else if s = "wasm" then some .Wasm
    else if s = "ppc64" then some .Ppc64
    else if s = "ppc64le" then some .Ppc64Le
    else if s = "loong64" then some .Loong64
    else if s = "mips" then some .Mips
    else if s = "mipsle" then some .Mipsle
    else if s = "mips64" then some .Mips64
    else if s = "mips64le" then some .Mips64le
    else if s = "riscv64" then some .Riscv64
    else if s = "s390x" then some .S390x
    else if s = "unknown" then some .Unknown
    else none
  | _ => none

/-- Serde decoding of `PlatformOS` (src/spec/enums.rs renames). -/
def parseOS (j : Json) : Option PlatformOS :=
  match j with
  | .str s =>
    if s = "aix" then some .Aix
    else if s = "android" then some .Android
    else if s = "darwin" then some .Darwin
    else if s = "dragonfly" then some .Dragonfly
    else if s = "freebsd" then some .Freebsd
    else if s = "illumos" then some .Illumos
    else if s = "ios" then some .Ios
    else if s = "js" then some .Js
    else if s = "linux" then some .Linux
    else if s = "netbsd" then some .Netbsd
    else if s = "openbsd" then some .Openbsd
    else if s = "plan9" then some .Plan9
    else if s = "solaris" then some .Solaris
    else if s = "wasip1" then some .Wasip1
    else if s = "windows" then some .Windows
    else if s = "unknown" then some .Unknown
    else none
  | _ => none

/-- Decode an optional field: an absent key is `none`; a present key must
decode, otherwise the whole record fails (serde semantics). -/
def parseOptField {α : Type} (j : Json) (k : String) (p : Json → Option α) : Option (Option α) :=
  match j.getField k with
  | none => some none
  | some v => (p v).map some

/-- Serde decoding of a string list. -/
def parseStringList (j : Json) : Option (List String) :=
  match j with
  | .arr xs => xs.mapM parseString
  | _ => none

/-- Serde decoding of `Platform` (src/spec/index.rs): architecture and os are
required, the rest optional. -/
def parsePlatform (j : Json) : Option Platform := do
  let architecture ← (j.getField "architecture").bind parseArchitecture
  let os ← (j.getField "os").bind parseOS
  let os_version ← parseOptField j "os.version" parseString
  let os_features ← parseOptField j "os.features" parseStringList
  let variant ← parseOptField j "variant" parseString
  let features ← parseOptField j "features" parseStringList
  pure { architecture := architecture, os := os, os_version := os_version,
         os_features := os_features, variant := variant, features := features }

/-- Serde decoding of a child `Manifest` descriptor (src/spec/index.rs):
mediaType, size and digest required, platform optional. -/
def parseManifestEntry (j : Json) : Option Manifest := do
  let media_type ← (j.getField "mediaType").bind parseMediaType
  let size ← (j.getField "size").bind parseNat
  let digest ← (j.getField "digest").bind parseString
  let platform ← parseOptField j "platform" parsePlatform
  pure { media_type := media_type, size := size, digest := digest, platform := platform }

/-- Mirrors `ImageIndex` from src/spec/index.rs (annotations omitted: no
claim reads them and their decoding cannot fail a body that has none). -/
structure ImageIndex where
  schema_version : Nat
  media_type : MediaType
  artifact_type : Option String
  manifests : List Manifest
deriving Repr

/-- Serde decoding of `ImageIndex` (src/spec/index.rs): `schemaVersion`,
`mediaType` and `manifests` are required fields with no default, so a body
lacking a `manifests` array fails to decode. -/
def parseImageIndex (j : Json) : Option ImageIndex := do
  let schema_version ← (j.getField "schemaVersion").bind parseNat
  let media_type ← (j.getField "mediaType").bind parseMediaType
  let artifact_type ← parseOptField j "artifactType" parseString
  let manifestsJson ← j.getField "manifests"
  let manifests ←
    match manifestsJson with
    | .arr xs => xs.mapM parseManifestEntry
    | _ => none
  pure { schema_version := schema_version, media_type := media_type,
         artifact_type := artifact_type, manifests := manifests }

/-- One observed HTTP response: status code and decoded JSON body. -/
structure HttpResponse where
  status : Nat
  body : Json

/-- Headers `OciDownloader::download_index` attaches (src/downloader.rs lines
61-69): the authentication headers followed by exactly one Accept header whose
value is the single OCI index media type. -/
def download_index_headers (auth : List (String × String)) : List (String × String) :=
  auth ++ [("Accept", "application/vnd.oci.image.index.v1+json")]

/-- Mirrors the response handling of `OciDownloader::download_index`
(src/downloader.rs lines 73-84): non-2xx statuses are errors; the body is
decoded as an `ImageIndex` unconditionally — there is no dispatch on the
response media type — and a decode failure is an error. -/
def download_index (response : HttpResponse) : Except String ImageIndex :=
  if 200 ≤ response.status ∧ response.status ≤ 299 then
    match parseImageIndex response.body with
    | some idx => .ok idx
    | none => .error "serde: invalid ImageIndex"
  else
    .error ("Failed to download index: " ++ toString response.status)

/-! ## Build executor (src/execution.rs) -/

/-- Mirrors `Descriptor` from src/spec/manifest.rs. -/
structure Descriptor where
  media_type : MediaType
  digest : String
  size : Nat
  data : Option String
deriving DecidableEq, Repr

/-- Mirrors `Layer` from src/execution.rs. -/
structure BuiltLayer where
  uncompressed_digest : String
  digest : String
  size : Nat
  comment : String
deriving DecidableEq, Repr

/-- Mirrors `Digest` from src/execution.rs. -/
structure DigestPair where
  compressed_digest : String
  uncompressed_digest : String
deriving DecidableEq, Repr

/-- Mirrors `Layer::to_descriptor` from src/execution.rs: every built layer is
described with the zstd layer media type. -/
def BuiltLayer.to_descriptor (l : BuiltLayer) : Descriptor :=
  { media_type := .OciImageLayerV1TarZstd
    digest := l.digest
    size := l.size
    data := none }

/-- One base-image layer as the executor fetches it in the `Image` arm of
`PlanExecution::execute`: the descriptor digest from the downloaded manifest,
the diff-id from the downloaded config, and the blob bytes returned by
`download_layer`. The `groundTar` field is the environment's ground truth —
the actual uncompressed tar content of the fetched blob — used only to state
honesty of the upstream registry; the executor itself never computes it. -/
structure ImageLayerFetch where
  digest : String
  diffId : String
  bytes : List Nat
  groundTar : List Nat
deriving Repr

/-- The three layer kinds of `ImagePlanLayerType` (src/spec/plan.rs), carrying
the data the corresponding arm of `PlanExecution::execute` reads: for `dir`
the tar stream assembled by `tar::Builder` over the walked files, for `tar`
the raw file bytes, for `image` the fetched base-image layers. -/
inductive LayerSource where
  | directory (tar : List Nat)
  | tarFile (bytes : List Nat)
  | image (layers : List ImageLayerFetch)

/-- Mirrors `PlanExecution::compress_tar` (src/execution.rs lines 88-114)
with the external primitives taken as parameters: hash the uncompressed tar,
zstd-compress it, hash the compressed bytes. -/
def compress_tar (compress : List Nat → List Nat) (sha : List Nat → String)
    (tar_buffer : List Nat) : List Nat × DigestPair :=
  let uncompressed_digest := sha tar_buffer
  let compressed_data := compress tar_buffer
  let compressed_digest := sha compressed_data
  (compressed_data,
   { compressed_digest := compressed_digest, uncompressed_digest := uncompressed_digest })

/-- Mirrors `PlanExecution::build_layer` (src/execution.rs lines 116-130):
package the wire bytes as a blob under the compressed digest and record the
layer with both digests and the wire size. -/
def build_layer (data : List Nat) (d : DigestPair) (comment : String) : Blob × BuiltLayer :=
  let blob : Blob := { digest := d.compressed_digest, data := data }
  let layer : BuiltLayer :=
    { uncompressed_digest := d.uncompressed_digest
      digest := d.compressed_digest
      size := blob.data.length
      comment := comment }
  (blob, layer)

/-- Mirrors the `match layer.layer_type` of `PlanExecution::execute`
(src/execution.rs lines 165-277): the `dir` arm compresses the assembled tar,
the `tar` arm uses the file bytes with one digest for both fields, the
`image` arm pairs each fetched blob with the upstream descriptor digest and
the upstream diff-id. -/
def layer_tar_buffers (compress : List Nat → List Nat) (sha : List Nat → String) :
    LayerSource → List (List Nat × DigestPair)
  | .directory tar_buffer => [compress_tar compress sha tar_buffer]
  | .tarFile bytes =>
    let digest := sha bytes
    [(bytes, { compressed_digest := digest, uncompressed_digest := digest })]
  | .image layers =>
    layers.map (fun l =>
      (l.bytes, { compressed_digest := l.digest, uncompressed_digest := l.diffId }))

/-- Mirrors the per-platform layer loop of `PlanExecution::execute`
(src/execution.rs lines 164-285): each layer source yields its buffers in
order, each buffer is packaged by `build_layer` and the blob is uploaded; the
resulting list keeps the upload order. -/
def execute_platform_layers (compress : List Nat → List Nat) (sha : List Nat → String)
    (specs : List (LayerSource × String)) : List (Blob × BuiltLayer) :=
  specs.flatMap (fun sc =>
    (layer_tar_buffers compress sha sc.1).map (fun bd => build_layer bd.1 bd.2 sc.2))

/-- The `rootfs.diff_ids` the executor writes into the image config
(src/execution.rs lines 297-303): the uncompressed digests of the built
layers in order. -/
def platform_diff_ids (built : List (Blob × BuiltLayer)) : List String :=
  built.map (fun bl => bl.2.uncompressed_digest)

/-- The `layers` array the executor writes into the image manifest
(src/execution.rs line 327): the descriptors of the built layers in order. -/
def platform_manifest_layers (built : List (Blob × BuiltLayer)) : List Descriptor :=
  built.map (fun bl => bl.2.to_descriptor)

/-- The compressed blobs uploaded for the built layers, in upload order. -/
def platform_blobs (built : List (Blob × BuiltLayer)) : List Blob :=
  built.map (fun bl => bl.1)

/-- Ground-truth uncompressed tar bytes of the layers a source contributes:
for a `dir` layer the assembled tar itself, for a `tar` layer the file bytes
(used as-is on the wire), for an `image` layer the fetched layers' actual tar
content. -/
def layer_uncompressed_bytes : LayerSource → List (List Nat)
  | .directory tar_buffer => [tar_buffer]
  | .tarFile bytes => [bytes]
  | .image layers => layers.map (fun l => l.groundTar)

/-- Ground-truth uncompressed tar bytes of an entire platform's layer list,
in layer order. -/
def all_uncompressed_bytes (specs : List (LayerSource × String)) : List (List Nat) :=
  specs.flatMap (fun sc => layer_uncompressed_bytes sc.1)

/-! ## Pull pipeline (src/compose/pull/mod.rs) -/

/-- Mirrors `DownloadableIndex`. -/
structure DownloadableIndex where
  full_image : FullImageWithTag
deriving Repr

/-- Mirrors `DownloadableManifest`. -/
structure DownloadableManifest where
  full_image : FullImageWithTag
  digest : String
deriving Repr

/-- Mirrors `DownloadableConfig`. -/
structure DownloadableConfig where
  full_image : FullImageWithTag
  layers : List Descriptor
  digest : String
deriving Repr

/-- Mirrors `DownloadableLayer`. -/
structure DownloadableLayer where
  full_image : FullImageWithTag
  digest : String
  uncompressed_digest : String
deriving Repr

/-- Mirrors the `Downloadable` sum type from src/compose/pull/mod.rs. -/
inductive Downloadable where
  | indexOf (i : DownloadableIndex)
  | manifestOf (m : DownloadableManifest)
  | configOf (c : DownloadableConfig)
  | layerOf (l : DownloadableLayer)
deriving Repr

/-- The shared pull state of `PullInstance` (src/compose/pull/mod.rs lines
54-62), restricted to the fields the dedup claim reads, plus the ghost field
`enqueued_log` recording which digests have been handed to a successful
enqueue, in order. -/
structure PullState where
  existing_digests : List String
  download_queue : List Downloadable
  total_bytes_to_download : Nat
  digest_to_image : List (String × FullImageWithTag)
  enqueued_log : List String

/-- Mirrors the closure `queue_if_not_download` of `run_pull`
(src/compose/pull/mod.rs lines 194-213). The Rust closure holds the
`existing_digests` mutex guard for its whole body, so the check, the
`digest_to_image` insert, the queue push, the set insert and the size
accounting form one critical section and are modelled as one atomic step. -/
def queue_if_not_download (st : PullState) (digest : String) (something : Downloadable)
    (full_image : FullImageWithTag) (size : Nat) : PullState × Bool :=
  if digest ∈ st.existing_digests then
    (st, false)
  else
    ({ existing_digests := st.existing_digests ++ [digest]
       download_queue := st.download_queue ++ [something]
       total_bytes_to_download := st.total_bytes_to_download + size
       digest_to_image := st.digest_to_image ++ [(digest, full_image)]
       enqueued_log := st.enqueued_log ++ [digest] }, true)

/-- The operations the eight workers interleave on the shared state during a
run: popping the queue tail, an enqueue attempt through
`queue_if_not_download`, the index arm's direct additions to the byte total,
and `download_complete` removing a finished digest from `digest_to_image`.
Each holds at most one of the mutexes, so an interleaved run is a sequence of
these steps. -/
inductive PullOp where
  | popTail
  | enqueue (digest : String) (item : Downloadable) (image : FullImageWithTag) (size : Nat)
  | addTotal (n : Nat)
  | completeUnit (digest : String)

/-- Effect of one worker step on the shared state. -/
def pullStep (st : PullState) : PullOp → PullState
  | .popTail => { st with download_queue := st.download_queue.dropLast }
  | .enqueue digest item image size => (queue_if_not_download st digest item image size).1
  | .addTotal n => { st with total_bytes_to_download := st.total_bytes_to_download + n }
  | .completeUnit digest =>
    { st with digest_to_image := st.digest_to_image.eraseP (fun kv => decide (kv.1 = digest)) }

/-- A whole interleaved run: fold the steps over the initial state. -/
def runPull (st : PullState) (ops : List PullOp) : PullState :=
  ops.foldl pullStep st

/-! ## Directory walk with filters (src/walk.rs) -/

/-- One entry produced by the recursive directory walk, as the filter sees
it: the path components below the walk root and whether it is a directory. -/
structure FsEntry where
  path : List String
  is_dir : Bool
deriving DecidableEq, Repr

/-- Mirrors `path.file_name()` as used in src/walk.rs line 20: the final path
component, with `""` when there is none. -/
def FsEntry.fileName (e : FsEntry) : String :=
  e.path.getLast?.getD ""

/-- The admission decision of `walk_with_filters` (src/walk.rs lines 16-33)
for one entry: directories are skipped; a file passes when the whitelist is
empty or some whitelist regex matches its file name, and no blacklist regex
matches its file name (an empty blacklist passes). Regexes are abstracted as
predicates on the matched string, since the code hands them only the file
name. -/
def walkAdmit (whitelist blacklist : List (String → Bool)) (e : FsEntry) : Bool :=
  if e.is_dir then false
  else
    let filename := e.fileName
    let whitelist_pass := whitelist.isEmpty || whitelist.any (fun regex => regex filename)
    let blacklist_pass := blacklist.isEmpty || !(blacklist.any (fun regex => regex filename))
    whitelist_pass && blacklist_pass

/-- Mirrors `walk_with_filters` from src/walk.rs: keep exactly the entries
the admission decision accepts, in walk order. -/
def walk_with_filters (entries : List FsEntry)
    (whitelist blacklist : List (String → Bool)) : List FsEntry :=
  entries.filter (walkAdmit whitelist blacklist)

/-! ## Auxiliary definitions for the statements -/

/-- Boolean success test for `Except` results. -/
def exceptOk {ε α : Type} : Except ε α → Bool
  | .ok _ => true
  | .error _ => false

/-- The image-layer fetches carried by a layer source: the fetched layers of
an `image` source, nothing for the other kinds. -/
def imageFetches : LayerSource → List ImageLayerFetch
  | .image layers => layers
  | _ => []

/-- A registry's answer for the index of a Docker-Hub-style single-platform
image: an image manifest (media type
`application/vnd.docker.distribution.manifest.v2+json`), not an index. -/
def dockerManifestJson : Json :=
  .obj [("schemaVersion", .num 2),
        ("mediaType", .str "application/vnd.docker.distribution.manifest.v2+json"),
        ("config", .obj [("mediaType", .str "application/vnd.docker.container.image.v1+json"),
                         ("digest", .str "sha256:c0ffee"), ("size", .num 7)]),
        ("layers", .arr [.obj [("mediaType", .str "application/vnd.docker.image.rootfs.diff.tar.gzip"),
                               ("digest", .str "sha256:aa"), ("size", .num 3)]])]

/-- A top-level (plan) config exposing port 80 with a marker value. -/
def c3Top : ImagePlanConfig :=
  { user := some "topuser"
    exposed_ports := some [("80/tcp", [("from", "plan")])]
    env := some ["A=1"]
    entrypoint := none
    cmd := none
    volumes := none
    working_dir := none
    labels := none
    stop_signal := none
    args_escaped := none
    memory := none
    memory_swap := none
    cpu_shares := none
    healthcheck := none }

/-- A platform-level config exposing the same port 80 with a different
marker value. -/
def c3Platform : ImagePlanConfig :=
  { user := none
    exposed_ports := some [("80/tcp", [("from", "platform")])]
    env := none
    entrypoint := none
    cmd := none
    volumes := none
    working_dir := none
    labels := none
    stop_signal := none
    args_escaped := none
    memory := none
    memory_swap := none
    cpu_shares := none
    healthcheck := none }

/-- Invariant tying the ghost enqueue log to the shared digest set: no digest
was enqueued twice, and every enqueued digest is in `existing_digests`. -/
def pullInv (st : PullState) : Prop :=
  st.enqueued_log.Nodup ∧ ∀ d ∈ st.enqueued_log, d ∈ st.existing_digests

/-- A concrete image reference for the pull-pipeline witness. -/
def c9Image : FullImageWithTag :=
  { image := { registry := "https://r", image_name := "n", library_name := "library/n",
               service := "svc" }
    tag := "latest" }

/-- A concrete manifest unit for the pull-pipeline witness. -/
def c9Item : Downloadable :=
  .manifestOf { full_image := c9Image, digest := "sha256:m1" }

/-- A concrete initial pull state: one digest already present, empty queue
and log. -/
def c9St : PullState :=
  { existing_digests := ["sha256:seed"], download_queue := [],
    total_bytes_to_download := 0, digest_to_image := [], enqueued_log := [] }

/-- A concrete interleaving: the same digest offered twice by two workers,
then a pop. -/
def c9Ops : List PullOp :=
  [.enqueue "sha256:m1" c9Item c9Image 10,
   .enqueue "sha256:m1" c9Item c9Image 10,
   .popTail]

/-- A concrete blacklist for the walk witness: rejects base name `bad`. -/
def c10Bl : List (String → Bool) :=
  [fun s => decide (s = "bad")]

/-- Concrete walk entries: one file in a subdirectory and one directory. -/
def c10Entries : List FsEntry :=
  [{ path := ["sub", "keep.txt"], is_dir := false },
   { path := ["sub"], is_dir := true }]

/-- Concrete compression for the executor witness: prepend a marker byte. -/
def c1Compress (l : List Nat) : List Nat := 0 :: l

/-- Concrete stand-in hash for the executor witness: one `x` per byte. -/
def c1Sha (l : List Nat) : String := String.mk (l.map (fun _ => 'x'))

/-- Concrete platform layer specs for the executor witness: one directory
layer, one tar layer and one base-image layer whose upstream digests agree
with `c1Sha`. -/
def c1Specs : List (LayerSource × String) :=
  [(.directory [1, 2], "dir layer"),
   (.tarFile [7], "tar layer"),
   (.image [{ digest := "xxx", diffId := "x", bytes := [4, 5, 6], groundTar := [9] }],
    "image layer")]

/-! ## Theorems -/

/-- Claim C2, counterexample: for the single-segment Docker Hub reference
`alpine:3.19` the downloader requests `<registry>/v2/alpine/manifests/3.19`
(repository path = image name), while the spec's emitted URL
`<registry>/v2/<library_name>/manifests/<tag>` is
`<registry>/v2/library/alpine/manifests/3.19`; the two differ, so the
repository path used in request URLs is not the library name. -/
theorem C2_counterexample :
    download_index_url (FullImageWithTag.from_image_name "alpine:3.19") =
        "https://registry-1.docker.io/v2/alpine/manifests/3.19" ∧
      spec_manifest_url (FullImageWithTag.from_image_name "alpine:3.19") =
        "https://registry-1.docker.io/v2/library/alpine/manifests/3.19" ∧
      download_index_url (FullImageWithTag.from_image_name "alpine:3.19") ≠
        spec_manifest_url (FullImageWithTag.from_image_name "alpine:3.19") :=
  ⟨by decide, by decide, by decide⟩

/-- Claim C2, amended: the repository path in the downloader's manifest URL
is the parsed image name, never the library-prefixed name; the claimed
round-trip equality with `<registry>/v2/<library_name>/manifests/<tag>` holds
exactly for inputs containing a slash, where the parser sets the library name
equal to the image name. -/
theorem C2_amended (s : String) (h : strContainsChar s '/' = true) :
    download_index_url (FullImageWithTag.from_image_name s) =
      spec_manifest_url (FullImageWithTag.from_image_name s) := by
  simp only [download_index_url, spec_manifest_url, FullImage.get_image_url,
    FullImageWithTag.from_image_name, h, if_true]

/-- Claim C2, witness for the amended theorem at `ghcr.io/owner/app`. -/
theorem C2_amended_witness :
    strContainsChar "ghcr.io/owner/app" '/' = true ∧
      download_index_url (FullImageWithTag.from_image_name "ghcr.io/owner/app") =
        spec_manifest_url (FullImageWithTag.from_image_name "ghcr.io/owner/app") :=
  ⟨by decide, C2_amended "ghcr.io/owner/app" (by decide)⟩

/-- The Rust loop of find_manifest is the first match of an
architecture-only predicate. -/
theorem find_manifest_eq_find (m : PlatformMatcher) (ms : List Manifest) :
    m.find_manifest ms =
      ms.find? (fun mf =>
        match mf.platform with
        | some p => m.matchesArch p.architecture
        | none => false) := by
  induction ms with
  | nil => rfl
  | cons mf rest ih =>
    cases hp : mf.platform with
    | none => simp [PlatformMatcher.find_manifest, List.find?, hp, ih]
    | some p =>
      by_cases hm : m.matchesArch p.architecture
      · simp [PlatformMatcher.find_manifest, List.find?, hp, hm]
      · simp [PlatformMatcher.find_manifest, List.find?, hp, hm, ih]

/-- Rewriting variants does not change which position find_manifest
selects. -/
theorem find_manifest_mapVariant (m : PlatformMatcher) (g : Option String → Option String)
    (ms : List Manifest) :
    m.find_manifest (ms.map (Manifest.mapVariant g)) =
      (m.find_manifest ms).map (Manifest.mapVariant g) := by
  induction ms with
  | nil => rfl
  | cons mf rest ih =>
    cases hp : mf.platform with
    | none => simp [PlatformMatcher.find_manifest, Manifest.mapVariant, hp, ih]
    | some p =>
      by_cases hm : m.matchesArch p.architecture
      · simp [PlatformMatcher.find_manifest, Manifest.mapVariant, hp, hm]
      · simp [PlatformMatcher.find_manifest, Manifest.mapVariant, hp, hm, ih]

/-- Claim C5: `find_manifest` returns the first descriptor whose platform
architecture equals the matcher's architecture (descriptors without a
platform never match); the variant field plays no role — the matcher carries
no variant, so rewriting variants arbitrarily changes the result only by the
same rewriting — and the result is `none` exactly when no descriptor's
architecture matches. -/
theorem C5_find_manifest (m : PlatformMatcher) (ms : List Manifest)
    (g : Option String → Option String) :
    (m.find_manifest ms =
      ms.find? (fun mf =>
        match mf.platform with
        | some p => m.matchesArch p.architecture
        | none => false)) ∧
    (m.find_manifest (ms.map (Manifest.mapVariant g)) =
      (m.find_manifest ms).map (Manifest.mapVariant g)) ∧
    (m.find_manifest ms = none ↔
      ∀ mf ∈ ms, ∀ p, mf.platform = some p → ¬ p.architecture = m.platform) := by
  refine ⟨find_manifest_eq_find m ms, find_manifest_mapVariant m g ms, ?_⟩
  rw [find_manifest_eq_find, List.find?_eq_none]
  constructor
  · intro h mf hmf p hp harch
    have := h mf hmf
    rw [hp] at this
    simp [PlatformMatcher.matchesArch, harch] at this
  · intro h mf hmf
    cases hp : mf.platform with
    | none => simp
    | some p =>
      have := h mf hmf p hp
      simp [PlatformMatcher.matchesArch]
      intro he
      exact absurd he.symm this

/-- Claim C8, counterexample: the Content-Type the uploader sends on a
manifest PUT is the hard-coded image-manifest media type, which differs from
the index media type the build executor passes for its final index PUT, so
the index PUT does not carry the OCI image-index media type. -/
theorem C8_counterexample :
    (upload_manifest_request "https://registry.example.com" "acme/app" "latest").2 =
        "application/vnd.oci.image.manifest.v1+json" ∧
      (upload_manifest_request "https://registry.example.com" "acme/app" "latest").2 ≠
        executor_index_put_media_type :=
  ⟨rfl, by decide⟩

/-- Claim C8, amended: `upload_manifest` PUTs to
`<registry>/v2/<name>/manifests/<tag>` with status 201 as the only success,
but the Content-Type header is always the image-manifest media type — the
function takes no media-type parameter, so the caller's choice (in
particular the executor's index type) is ignored. -/
theorem C8_amended (registry image_name tag : String) (putStatus : Nat) :
    (upload_manifest_request registry image_name tag).1 =
        registry ++ "/v2/" ++ image_name ++ "/manifests/" ++ tag ∧
      (upload_manifest_request registry image_name tag).2 =
        "application/vnd.oci.image.manifest.v1+json" ∧
      exceptOk (upload_manifest_result putStatus) = (putStatus == 201) := by
  refine ⟨rfl, rfl, ?_⟩
  by_cases h : putStatus == 201 <;> simp [upload_manifest_result, exceptOk, h]

/-- Claim C7: `upload_blob` never issues a PUT (nor even a POST) for a digest
that is already in the per-process uploaded list or whose HEAD probe answers
200; in either case it returns success having sent no upload. -/
theorem C7_no_put_when_present (registry image_name : String) (ub : List String)
    (b : Blob) (env : RegistryEnv) (h : b.digest ∈ ub ∨ env.headStatus = 200) :
    (upload_blob registry image_name ub b env).result = .ok () ∧
      ∀ url, UploadAction.putReq url ∉ (upload_blob registry image_name ub b env).actions ∧
        UploadAction.postReq url ∉ (upload_blob registry image_name ub b env).actions := by
  by_cases hm : b.digest ∈ ub
  · have hbe : blob_exists registry image_name ub b env.headStatus = (true, ub, []) := by
      simp [blob_exists, hm]
    simp [upload_blob, hbe]
  · have h200 : env.headStatus = 200 := h.resolve_left hm
    have hbe : blob_exists registry image_name ub b env.headStatus =
        (true, ub ++ [b.digest],
         [.headReq (registry ++ "/v2/" ++ image_name ++ "/blobs/" ++ b.digest)]) := by
      simp [blob_exists, hm, h200]
    simp [upload_blob, hbe]

/-- Claim C7, witness: a digest already in the per-process list yields
success with no POST or PUT even though the registry would answer 500. -/
theorem C7_witness :
    (upload_blob "https://r.example" "lib/app" ["sha256:d1"] ⟨"sha256:d1", [1]⟩
        ⟨500, none, 0⟩).result = .ok () ∧
      ∀ url, UploadAction.putReq url ∉
          (upload_blob "https://r.example" "lib/app" ["sha256:d1"] ⟨"sha256:d1", [1]⟩
            ⟨500, none, 0⟩).actions ∧
        UploadAction.postReq url ∉
          (upload_blob "https://r.example" "lib/app" ["sha256:d1"] ⟨"sha256:d1", [1]⟩
            ⟨500, none, 0⟩).actions :=
  C7_no_put_when_present "https://r.example" "lib/app" ["sha256:d1"] ⟨"sha256:d1", [1]⟩
    ⟨500, none, 0⟩ (Or.inl (by decide))

/-- Claim C6, counterexample: a HEAD probe answered 500 does not make
`upload_blob` fail; it proceeds to the POST and PUT and returns success, so a
5xx HEAD answer is treated as mere absence, not as an error. -/
theorem C6_counterexample :
    (upload_blob "https://r.example" "lib/app" [] ⟨"sha256:d1", [1, 2]⟩
        ⟨500, some "/uploads/session1", 201⟩).result = .ok () ∧
      (upload_blob "https://r.example" "lib/app" [] ⟨"sha256:d1", [1, 2]⟩
        ⟨500, some "/uploads/session1", 201⟩).actions =
        [.headReq "https://r.example/v2/lib/app/blobs/sha256:d1",
         .postReq "https://r.example/v2/lib/app/blobs/uploads/",
         .putReq "https://r.example/uploads/session1?digest=sha256:d1"] :=
  ⟨rfl, rfl⟩

/-- Claim C6, amended: a HEAD answered 200 causes the digest to be recorded
and `upload_blob` to return success with no upload; a HEAD answered with any
other status — 5xx included — causes `upload_blob` to proceed to the
POST/PUT upload rather than failing on the probe. -/
theorem C6_amended (registry image_name : String) (ub : List String) (b : Blob)
    (env : RegistryEnv) (hmem : b.digest ∉ ub) :
    (env.headStatus = 200 →
      (upload_blob registry image_name ub b env).result = .ok () ∧
        b.digest ∈ (upload_blob registry image_name ub b env).uploadedBlobs ∧
        (upload_blob registry image_name ub b env).actions =
          [.headReq (registry ++ "/v2/" ++ image_name ++ "/blobs/" ++ b.digest)]) ∧
    (env.headStatus ≠ 200 →
      UploadAction.postReq (registry ++ "/v2/" ++ image_name ++ "/blobs/uploads/") ∈
        (upload_blob registry image_name ub b env).actions) := by
  constructor
  · intro h200
    have hbe : blob_exists registry image_name ub b env.headStatus =
        (true, ub ++ [b.digest],
         [.headReq (registry ++ "/v2/" ++ image_name ++ "/blobs/" ++ b.digest)]) := by
      simp [blob_exists, hmem, h200]
    simp [upload_blob, hbe]
  · intro hne
    have hbe : blob_exists registry image_name ub b env.headStatus =
        (false, ub,
         [.headReq (registry ++ "/v2/" ++ image_name ++ "/blobs/" ++ b.digest)]) := by
      simp [blob_exists, hmem, hne]
    cases hpl : env.postLocation with
    | none => simp [upload_blob, hbe, hpl]
    | some loc =>
      by_cases hput : env.putStatus == 201 <;>
        simp [upload_blob, hbe, hpl, hput]

/-- Claim C6, witness for the amended theorem: with an empty uploaded list
and a HEAD answered 200, the blob is recorded and no upload happens; the
non-200 branch holds vacuously. -/
theorem C6_amended_witness :
    ((⟨(200 : Nat), none, 0⟩ : RegistryEnv).headStatus = 200 →
      (upload_blob "https://r.example" "lib/app" [] ⟨"sha256:d1", [1]⟩
          ⟨200, none, 0⟩).result = .ok () ∧
        "sha256:d1" ∈ (upload_blob "https://r.example" "lib/app" [] ⟨"sha256:d1", [1]⟩
          ⟨200, none, 0⟩).uploadedBlobs ∧
        (upload_blob "https://r.example" "lib/app" [] ⟨"sha256:d1", [1]⟩
          ⟨200, none, 0⟩).actions =
          [.headReq ("https://r.example" ++ "/v2/" ++ "lib/app" ++ "/blobs/" ++ "sha256:d1")]) ∧
    ((⟨(200 : Nat), none, 0⟩ : RegistryEnv).headStatus ≠ 200 →
      UploadAction.postReq ("https://r.example" ++ "/v2/" ++ "lib/app" ++ "/blobs/uploads/") ∈
        (upload_blob "https://r.example" "lib/app" [] ⟨"sha256:d1", [1]⟩
          ⟨200, none, 0⟩).actions) :=
  C6_amended "https://r.example" "lib/app" [] ⟨"sha256:d1", [1]⟩ ⟨200, none, 0⟩ (by decide)

/-- Claim C4, counterexample: a registry answering the manifest request with
a Docker image manifest (media type
`application/vnd.docker.distribution.manifest.v2+json`) makes
`download_index` fail — the body has no `manifests` field, and the function
decodes every body as an `ImageIndex` with no media-type dispatch; moreover
the request's Accept header advertises only the OCI index media type, not the
manifest media types. -/
theorem C4_counterexample :
    download_index ⟨200, dockerManifestJson⟩ = .error "serde: invalid ImageIndex" ∧
      (download_index_headers []).map (fun kv => kv.2) =
        ["application/vnd.oci.image.index.v1+json"] :=
  ⟨rfl, rfl⟩

/-- Claim C4, amended: `download_index` attaches a single Accept header whose
value is only the OCI index media type, and it succeeds exactly when the
status is 2xx and the body decodes as an `ImageIndex`; a manifest body is not
dispatched to a single-platform result but fails. -/
theorem C4_amended (auth : List (String × String)) (r : HttpResponse) :
    download_index_headers auth =
        auth ++ [("Accept", "application/vnd.oci.image.index.v1+json")] ∧
      (exceptOk (download_index r) = true ↔
        (200 ≤ r.status ∧ r.status ≤ 299) ∧ (parseImageIndex r.body).isSome = true) := by
  refine ⟨rfl, ?_⟩
  unfold download_index
  by_cases h : 200 ≤ r.status ∧ r.status ≤ 299
  · cases hp : parseImageIndex r.body <;> simp [exceptOk, h, hp]
  · simp [exceptOk, h]

/-- Erasing the binding of one key does not change lookups of another
key. -/
theorem find_eraseP_ne {α : Type} (m : HMap α) (k k2 : String) (h : k2 ≠ k) :
    (m.eraseP (fun kv => decide (kv.1 = k))).find? (fun kv => decide (kv.1 = k2)) =
      m.find? (fun kv => decide (kv.1 = k2)) := by
  induction m with
  | nil => rfl
  | cons kv rest ih =>
    by_cases hk : kv.1 = k
    · have hk2 : ¬ kv.1 = k2 := by
        intro he
        apply h
        rw [← he, hk]
      rw [List.eraseP_cons]
      rw [show (decide (kv.1 = k)) = true by simp [hk]]
      simp only [cond_true]
      rw [List.find?_cons_of_neg _ (by simp [hk2])]
    · rw [List.eraseP_cons]
      rw [show (decide (kv.1 = k)) = false by simp [hk]]
      simp only [cond_false]
      by_cases h2 : kv.1 = k2
      · rw [List.find?_cons_of_pos _ (by simp [h2]), List.find?_cons_of_pos _ (by simp [h2])]
      · rw [List.find?_cons_of_neg _ (by simp [h2]), List.find?_cons_of_neg _ (by simp [h2]), ih]

/-- Lookup after a single overwrite-insert. -/
theorem findKey_insertKV {α : Type} (m : HMap α) (k : String) (v : α) (k2 : String) :
    (m.insertKV k v).findKey k2 = if k2 = k then some v else m.findKey k2 := by
  by_cases h : k2 = k
  · subst h; simp [HMap.insertKV, HMap.findKey, List.find?]
  · have hne : ¬ k = k2 := fun he => h he.symm
    simp [HMap.insertKV, HMap.findKey, List.find?, h, hne, find_eraseP_ne m k k2 h]

/-- Lookup after `extendWith`: when the added map has distinct keys, its
bindings win on common keys and the base map answers the rest — i.e. the
entries of the second argument override those of the first. -/
theorem findKey_extendWith {α : Type} (m add : HMap α) (k : String)
    (hnd : (add.map Prod.fst).Nodup) :
    HMap.findKey (HMap.extendWith m add) k =
      (HMap.findKey add k).orElse (fun _ => HMap.findKey m k) := by
  induction add generalizing m with
  | nil => simp [HMap.extendWith, HMap.findKey, List.find?, Option.orElse]
  | cons kv rest ih =>
    obtain ⟨k0, v0⟩ := kv
    have hk0 : k0 ∉ rest.map Prod.fst := (List.nodup_cons.mp hnd).1
    have hnd2 : (rest.map Prod.fst).Nodup := (List.nodup_cons.mp hnd).2
    have hfold : (HMap.extendWith m ((k0, v0) :: rest)) =
        (HMap.extendWith (HMap.insertKV m k0 v0) rest) := rfl
    rw [hfold, ih (HMap.insertKV m k0 v0) hnd2]
    by_cases hkk : k = k0
    · subst hkk
      have hfind : List.find? (fun kv => decide ((kv : String × α).1 = k)) rest = none := by
        rw [List.find?_eq_none]
        intro x hx
        simp only [decide_eq_true_eq]
        intro hx1
        exact hk0 (hx1 ▸ List.mem_map_of_mem Prod.fst hx)
      have hrest : HMap.findKey rest k = none := by
        unfold HMap.findKey
        rw [hfind]
        rfl
      have hcons : HMap.findKey ((k, v0) :: rest) k = some v0 := by
        simp [HMap.findKey, List.find?]
      rw [hrest, hcons, findKey_insertKV]
      simp [Option.orElse]
    · have hne0 : ¬ k0 = k := fun he => hkk he.symm
      have hcons : HMap.findKey ((k0, v0) :: rest) k = HMap.findKey rest k := by
        simp [HMap.findKey, List.find?, hne0]
      rw [hcons, findKey_insertKV]
      simp only [hkk, if_false]

/-- Claim C3, counterexample: merging a plan-level config exposing
`80/tcp ↦ {from: plan}` with a platform-level config exposing
`80/tcp ↦ {from: platform}` yields a merged map whose entry for `80/tcp` is
the plan-level value — the platform-level entry does not override on the
common key, contradicting the claimed platform-over-plan map precedence. -/
theorem C3_counterexample :
    (match merge_image_plan_configs (some c3Top) (some c3Platform) with
      | some cfg => (cfg.exposed_ports.getD []).findKey "80/tcp"
      | none => none) = some [("from", "plan")] ∧
      (some [("from", "plan")] : Option (HMap String)) ≠ some [("from", "platform")] :=
  ⟨rfl, by decide⟩

/-- Claim C3, amended: in `merge_image_plan_configs` the scalar fields and
the list fields (env, entrypoint, cmd) do take the platform-level value when
present and the plan-level value otherwise, but the map-valued fields
(exposed ports, volumes, labels) are the key-union of both with the
plan-level (top) entries overriding the platform-level entries on common
keys; a map present on only one side is taken wholesale. -/
theorem C3_amended (top pl : ImagePlanConfig)
    (hp : ∀ tm, top.exposed_ports = some tm → (tm.map Prod.fst).Nodup)
    (hv : ∀ tm, top.volumes = some tm → (tm.map Prod.fst).Nodup)
    (hl : ∀ tm, top.labels = some tm → (tm.map Prod.fst).Nodup) :
    ∃ cfg, merge_image_plan_configs (some top) (some pl) = some cfg ∧
      cfg.user = pl.user.orElse (fun _ => top.user) ∧
      cfg.working_dir = pl.working_dir.orElse (fun _ => top.working_dir) ∧
      cfg.stop_signal = pl.stop_signal.orElse (fun _ => top.stop_signal) ∧
      cfg.args_escaped = pl.args_escaped.orElse (fun _ => top.args_escaped) ∧
      cfg.memory = pl.memory.orElse (fun _ => top.memory) ∧
      cfg.memory_swap = pl.memory_swap.orElse (fun _ => top.memory_swap) ∧
      cfg.cpu_shares = pl.cpu_shares.orElse (fun _ => top.cpu_shares) ∧
      cfg.env = pl.env.orElse (fun _ => top.env) ∧
      cfg.entrypoint = pl.entrypoint.orElse (fun _ => top.entrypoint) ∧
      cfg.cmd = pl.cmd.orElse (fun _ => top.cmd) ∧
      (∀ tm pm, top.exposed_ports = some tm → pl.exposed_ports = some pm →
        ∃ mm, cfg.exposed_ports = some mm ∧
          ∀ k, HMap.findKey mm k =
            (HMap.findKey tm k).orElse (fun _ => HMap.findKey pm k)) ∧
      (top.exposed_ports = none → cfg.exposed_ports = pl.exposed_ports) ∧
      (pl.exposed_ports = none → cfg.exposed_ports = top.exposed_ports) ∧
      (∀ tm pm, top.volumes = some tm → pl.volumes = some pm →
        ∃ mm, cfg.volumes = some mm ∧
          ∀ k, HMap.findKey mm k =
            (HMap.findKey tm k).orElse (fun _ => HMap.findKey pm k)) ∧
      (top.volumes = none → cfg.volumes = pl.volumes) ∧
      (pl.volumes = none → cfg.volumes = top.volumes) ∧
      (∀ tm pm, top.labels = some tm → pl.labels = some pm →
        ∃ mm, cfg.labels = some mm ∧
          ∀ k, HMap.findKey mm k =
            (HMap.findKey tm k).orElse (fun _ => HMap.findKey pm k)) ∧
      (top.labels = none → cfg.labels = pl.labels) ∧
      (pl.labels = none → cfg.labels = top.labels) := by
  refine ⟨_, rfl, rfl, rfl, rfl, rfl, rfl, rfl, rfl, rfl, rfl, rfl,
    ?_, ?_, ?_, ?_, ?_, ?_, ?_, ?_, ?_⟩
  · intro tm pm htm hpm
    refine ⟨HMap.extendWith pm tm, ?_, ?_⟩
    · show mergeMapField pl.exposed_ports top.exposed_ports = some (HMap.extendWith pm tm)
      rw [htm, hpm]
      rfl
    · intro k
      exact findKey_extendWith pm tm k (hp tm htm)
  · intro htm
    show mergeMapField pl.exposed_ports top.exposed_ports = pl.exposed_ports
    rw [htm]; cases pl.exposed_ports <;> rfl
  · intro hpm
    show mergeMapField pl.exposed_ports top.exposed_ports = top.exposed_ports
    rw [hpm]; cases top.exposed_ports <;> rfl
  · intro tm pm htm hpm
    refine ⟨HMap.extendWith pm tm, ?_, ?_⟩
    · show mergeMapField pl.volumes top.volumes = some (HMap.extendWith pm tm)
      rw [htm, hpm]
      rfl
    · intro k
      exact findKey_extendWith pm tm k (hv tm htm)
  · intro htm
    show mergeMapField pl.volumes top.volumes = pl.volumes
    rw [htm]; cases pl.volumes <;> rfl
  · intro hpm
    show mergeMapField pl.volumes top.volumes = top.volumes
    rw [hpm]; cases top.volumes <;> rfl
  · intro tm pm htm hpm
    refine ⟨HMap.extendWith pm tm, ?_, ?_⟩
    · show mergeMapField pl.labels top.labels = some (HMap.extendWith pm tm)
      rw [htm, hpm]
      rfl
    · intro k
      exact findKey_extendWith pm tm k (hl tm htm)
  · intro htm
    show mergeMapField pl.labels top.labels = pl.labels
    rw [htm]; cases pl.labels <;> rfl
  · intro hpm
    show mergeMapField pl.labels top.labels = top.labels
    rw [hpm]; cases top.labels <;> rfl

/-- Claim C3, witness for the amended theorem at the two concrete configs of
the counterexample. -/
theorem C3_amended_witness :
    ∃ cfg, merge_image_plan_configs (some c3Top) (some c3Platform) = some cfg ∧
      cfg.user = (c3Platform.user).orElse (fun _ => c3Top.user) := by
  have hp : ∀ tm, c3Top.exposed_ports = some tm → (tm.map Prod.fst).Nodup := by
    intro tm htm
    rw [show c3Top.exposed_ports = some [("80/tcp", [("from", "plan")])] from rfl] at htm
    obtain rfl : [("80/tcp", [("from", "plan")])] = tm := Option.some.inj htm
    decide
  have hv : ∀ tm, c3Top.volumes = some tm → (tm.map Prod.fst).Nodup := by
    intro tm htm
    exact Option.noConfusion htm
  have hl : ∀ tm, c3Top.labels = some tm → (tm.map Prod.fst).Nodup := by
    intro tm htm
    exact Option.noConfusion htm
  obtain ⟨cfg, hmerge, huser, _⟩ := C3_amended c3Top c3Platform hp hv hl
  exact ⟨cfg, hmerge, huser⟩

/-- Pointwise facts about one list lift to `Forall₂` over its two images. -/
theorem forall2_map_map {α β γ : Type} (P : β → γ → Prop) (f : α → β) (g : α → γ)
    (l : List α) (h : ∀ x ∈ l, P (f x) (g x)) :
    List.Forall₂ P (l.map f) (l.map g) := by
  induction l with
  | nil => exact List.Forall₂.nil
  | cons x xs ih =>
    exact List.Forall₂.cons (h x (List.mem_cons_self x xs))
      (ih (fun y hy => h y (List.mem_cons_of_mem x hy)))

/-- `Forall₂` distributes over list append. -/
theorem forall2_append_both {α β : Type} (P : α → β → Prop) :
    ∀ {l1 : List α} {l2 : List β} {l3 : List α} {l4 : List β},
      List.Forall₂ P l1 l2 → List.Forall₂ P l3 l4 → List.Forall₂ P (l1 ++ l3) (l2 ++ l4) := by
  intro l1 l2 l3 l4 h1 h2
  induction h1 with
  | nil => exact h2
  | cons hx _ ih => exact List.Forall₂.cons hx ih

/-- Every built layer's recorded digest is the hash of the blob bytes
uploaded for it, granted the upstream descriptors of image-sourced layers are
honest. -/
theorem execute_digest_of_mem (compress : List Nat → List Nat) (sha : List Nat → String)
    (specs : List (LayerSource × String))
    (himg : ∀ sc ∈ specs, ∀ l ∈ imageFetches sc.1, l.digest = sha l.bytes) :
    ∀ bl ∈ execute_platform_layers compress sha specs, bl.2.digest = sha bl.1.data := by
  intro bl hbl
  unfold execute_platform_layers at hbl
  rw [List.mem_flatMap] at hbl
  obtain ⟨sc, hsc, hbl⟩ := hbl
  rw [List.mem_map] at hbl
  obtain ⟨bd, hbd, rfl⟩ := hbl
  cases hsrc : sc.1 with
  | directory tar_buffer =>
    rw [hsrc] at hbd
    simp only [layer_tar_buffers, compress_tar, List.mem_singleton] at hbd
    subst hbd
    rfl
  | tarFile bytes =>
    rw [hsrc] at hbd
    simp only [layer_tar_buffers, List.mem_singleton] at hbd
    subst hbd
    rfl
  | image layers =>
    rw [hsrc] at hbd
    simp only [layer_tar_buffers, List.mem_map] at hbd
    obtain ⟨l, hl, rfl⟩ := hbd
    have hdg : l.digest = sha l.bytes := by
      have := himg sc hsc l
      rw [hsrc] at this
      exact this hl
    exact hdg

/-- The diff-ids of the built layers are, in order, the hashes of the
ground-truth uncompressed tar bytes, granted image-layer honesty. -/
theorem execute_diff_forall2 (compress : List Nat → List Nat) (sha : List Nat → String)
    (specs : List (LayerSource × String))
    (himg : ∀ sc ∈ specs, ∀ l ∈ imageFetches sc.1, l.diffId = sha l.groundTar) :
    List.Forall₂ (fun (diff : String) (tar : List Nat) => diff = sha tar)
      (platform_diff_ids (execute_platform_layers compress sha specs))
      (all_uncompressed_bytes specs) := by
  induction specs with
  | nil => exact List.Forall₂.nil
  | cons sc rest ih =>
    have hexp : execute_platform_layers compress sha (sc :: rest) =
        (layer_tar_buffers compress sha sc.1).map (fun bd => build_layer bd.1 bd.2 sc.2) ++
          execute_platform_layers compress sha rest := by
      simp [execute_platform_layers]
    have huexp : all_uncompressed_bytes (sc :: rest) =
        layer_uncompressed_bytes sc.1 ++ all_uncompressed_bytes rest := by
      simp [all_uncompressed_bytes]
    rw [hexp, huexp]
    unfold platform_diff_ids
    rw [List.map_append]
    apply forall2_append_both
    · cases hsrc : sc.1 with
      | directory tar_buffer =>
        exact List.Forall₂.cons rfl List.Forall₂.nil
      | tarFile bytes =>
        exact List.Forall₂.cons rfl List.Forall₂.nil
      | image layers =>
        simp only [layer_tar_buffers, layer_uncompressed_bytes, List.map_map]
        apply forall2_map_map
        intro l hl
        have := himg sc (List.mem_cons_self sc rest) l
        rw [hsrc] at this
        exact this hl
    · exact ih (fun sc2 hsc2 => himg sc2 (List.mem_cons_of_mem sc hsc2))

/-- Claim C1: for every platform of an executed build plan, the i-th manifest
layer descriptor's digest is the sha of the exact compressed bytes uploaded
as the i-th blob, and the i-th entry of config.rootfs.diff_ids is the sha of
that layer's uncompressed tar bytes, with manifest.layers and diff_ids listing
the layers in the same order (both `Forall₂` statements pair position i with
position i). The hypothesis states that the upstream registry of
image-sourced layers is honest: its descriptor digests and diff-ids are the
hashes of the bytes it serves; dir and tar layers need no assumption. -/
theorem C1_built_image_digests (compress : List Nat → List Nat) (sha : List Nat → String)
    (specs : List (LayerSource × String))
    (himg : ∀ sc ∈ specs, ∀ l ∈ imageFetches sc.1,
      l.digest = sha l.bytes ∧ l.diffId = sha l.groundTar) :
    List.Forall₂ (fun (d : Descriptor) (b : Blob) => d.digest = sha b.data)
        (platform_manifest_layers (execute_platform_layers compress sha specs))
        (platform_blobs (execute_platform_layers compress sha specs)) ∧
      List.Forall₂ (fun (diff : String) (tar : List Nat) => diff = sha tar)
        (platform_diff_ids (execute_platform_layers compress sha specs))
        (all_uncompressed_bytes specs) := by
  constructor
  · unfold platform_manifest_layers platform_blobs
    apply forall2_map_map
    intro bl hbl
    show bl.2.to_descriptor.digest = sha bl.1.data
    have := execute_digest_of_mem compress sha specs
      (fun sc hsc l hl => (himg sc hsc l hl).1) bl hbl
    simpa [BuiltLayer.to_descriptor] using this
  · exact execute_diff_forall2 compress sha specs
      (fun sc hsc l hl => (himg sc hsc l hl).2)

/-- Claim C1, witness at a concrete three-layer platform. -/
theorem C1_witness :
    List.Forall₂ (fun (d : Descriptor) (b : Blob) => d.digest = c1Sha b.data)
        (platform_manifest_layers (execute_platform_layers c1Compress c1Sha c1Specs))
        (platform_blobs (execute_platform_layers c1Compress c1Sha c1Specs)) ∧
      List.Forall₂ (fun (diff : String) (tar : List Nat) => diff = c1Sha tar)
        (platform_diff_ids (execute_platform_layers c1Compress c1Sha c1Specs))
        (all_uncompressed_bytes c1Specs) :=
  C1_built_image_digests c1Compress c1Sha c1Specs (by decide)

/-- Each worker step keeps the dedup invariant and never removes a digest
from the shared set. -/
theorem pullStep_preserves (st : PullState) (op : PullOp) (h : pullInv st) :
    pullInv (pullStep st op) ∧
      ∀ d ∈ st.existing_digests, d ∈ (pullStep st op).existing_digests := by
  cases op with
  | popTail => exact ⟨h, fun d hd => hd⟩
  | addTotal n => exact ⟨h, fun d hd => hd⟩
  | completeUnit d0 => exact ⟨h, fun d hd => hd⟩
  | enqueue d0 it im sz =>
    have hq : pullStep st (.enqueue d0 it im sz) = (queue_if_not_download st d0 it im sz).1 := rfl
    rw [hq]
    unfold queue_if_not_download
    by_cases hd : d0 ∈ st.existing_digests
    · simp only [hd, if_true]
      exact ⟨h, fun d hdm => hdm⟩
    · simp only [hd, if_false]
      refine ⟨⟨?_, ?_⟩, ?_⟩
      · rw [List.nodup_append]
        refine ⟨h.1, List.nodup_singleton d0, ?_⟩
        intro a ha hb
        rw [List.mem_singleton] at hb
        subst hb
        exact hd (h.2 a ha)
      · intro d hdm
        rw [List.mem_append] at hdm
        rcases hdm with hdm | hdm
        · exact List.mem_append_left _ (h.2 d hdm)
        · exact List.mem_append_right _ hdm
      · intro d hdm
        exact List.mem_append_left _ hdm

/-- The invariant and monotone growth hold along any interleaved run. -/
theorem runPull_preserves (st : PullState) (ops : List PullOp) (h : pullInv st) :
    pullInv (runPull st ops) ∧
      ∀ d ∈ st.existing_digests, d ∈ (runPull st ops).existing_digests := by
  induction ops generalizing st with
  | nil => exact ⟨h, fun d hd => hd⟩
  | cons op rest ih =>
    obtain ⟨h1, h2⟩ := pullStep_preserves st op h
    obtain ⟨h3, h4⟩ := ih (pullStep st op) h1
    exact ⟨h3, fun d hd => h4 d (h2 d hd)⟩

/-- Claim C9: along any interleaving of worker steps the shared
existing-digests set only grows; the ghost log of successfully enqueued
digests stays duplicate-free (no digest is ever enqueued twice across the
workers) and stays inside the set; and an enqueue attempt for a digest
already in the set leaves the state unchanged and reports a skip — the
check, set insert, byte accounting and queue push being one critical section
under the `existing_digests` lock. -/
theorem C9_dedup_invariant (st : PullState) (ops : List PullOp) (h : pullInv st) :
    (∀ d ∈ st.existing_digests, d ∈ (runPull st ops).existing_digests) ∧
      (runPull st ops).enqueued_log.Nodup ∧
      (∀ d ∈ (runPull st ops).enqueued_log, d ∈ (runPull st ops).existing_digests) ∧
      (∀ digest item image size, digest ∈ st.existing_digests →
        queue_if_not_download st digest item image size = (st, false)) := by
  obtain ⟨⟨h1, h2⟩, h3⟩ := runPull_preserves st ops h
  refine ⟨h3, h1, h2, ?_⟩
  intro digest item image size hdm
  unfold queue_if_not_download
  simp only [hdm, if_true]

/-- Claim C9, witness: from a state holding one seed digest, two competing
enqueues of the same new digest and a pop leave a duplicate-free log. -/
theorem C9_witness :
    (∀ d ∈ c9St.existing_digests, d ∈ (runPull c9St c9Ops).existing_digests) ∧
      (runPull c9St c9Ops).enqueued_log.Nodup ∧
      (∀ d ∈ (runPull c9St c9Ops).enqueued_log, d ∈ (runPull c9St c9Ops).existing_digests) ∧
      (∀ digest item image size, digest ∈ c9St.existing_digests →
        queue_if_not_download c9St digest item image size = (c9St, false)) :=
  C9_dedup_invariant c9St c9Ops ⟨List.nodup_nil, by simp [c9St]⟩

/-- Claim C10: the walk filter skips every directory entry (so empty
directories contribute nothing to the layer tar); its admission decision
reads only the entry's kind and final path component, never the directory
path; and under an empty whitelist a file is kept exactly when the blacklist
does not match its file name (an empty blacklist keeps everything). -/
theorem C10_walk_filters (whitelist blacklist : List (String → Bool))
    (entries : List FsEntry) :
    (∀ e ∈ walk_with_filters entries whitelist blacklist, e.is_dir = false) ∧
      (∀ e1 e2 : FsEntry, e1.is_dir = e2.is_dir → e1.fileName = e2.fileName →
        walkAdmit whitelist blacklist e1 = walkAdmit whitelist blacklist e2) ∧
      (∀ e ∈ entries, e.is_dir = false →
        (e ∈ walk_with_filters entries [] blacklist ↔
          (blacklist.isEmpty || !(blacklist.any (fun regex => regex e.fileName))) = true)) := by
  refine ⟨?_, ?_, ?_⟩
  · intro e he
    unfold walk_with_filters at he
    rw [List.mem_filter] at he
    obtain ⟨_, hadm⟩ := he
    unfold walkAdmit at hadm
    cases hdir : e.is_dir with
    | false => rfl
    | true => rw [hdir] at hadm; simp at hadm
  · intro e1 e2 hdir hname
    unfold walkAdmit
    rw [hdir, hname]
  · intro e he hdir
    unfold walk_with_filters
    rw [List.mem_filter]
    unfold walkAdmit
    simp [hdir, he]

/-- Claim C10, witness at a concrete entry list and blacklist. -/
theorem C10_witness :
    (∀ e ∈ walk_with_filters c10Entries c10Bl c10Bl, e.is_dir = false) ∧
      walkAdmit c10Bl c10Bl { path := ["a", "keep.txt"], is_dir := false } =
        walkAdmit c10Bl c10Bl { path := ["b", "c", "keep.txt"], is_dir := false } ∧
      ({ path := ["sub", "keep.txt"], is_dir := false } ∈
          walk_with_filters c10Entries [] c10Bl ↔
        (c10Bl.isEmpty ||
          !(c10Bl.any (fun regex =>
            regex (FsEntry.fileName { path := ["sub", "keep.txt"], is_dir := false })))) = true) := by
  obtain ⟨ha, hb, hc⟩ := C10_walk_filters c10Bl c10Bl c10Entries
  refine ⟨ha, ?_, ?_⟩
  · exact hb { path := ["a", "keep.txt"], is_dir := false }
      { path := ["b", "c", "keep.txt"], is_dir := false } rfl rfl
  · obtain ⟨_, _, hc2⟩ := C10_walk_filters c10Bl c10Bl c10Entries
    exact hc2 { path := ["sub", "keep.txt"], is_dir := false } (by simp [c10Entries]) rfl

end Ocitool
